import Mathlib

/-!
Verification of the PokeTrade Flask application (`src/poketrade_flask_app.py`)
against its natural-language specification.  The relational data model, the
route handlers' SQL queries, and the auth component are shallowly embedded as
executable Lean definitions; tables are lists of rows, queries are
filter/join/sort compositions, and the external password-hash library is an
abstract scheme characterised by a soundness property.
-/

namespace PokeTrade

/-- ASCII lower-casing of a character.  SQLite's `LIKE` operator and its
`lower` fold only the ASCII range A–Z; this mirrors that. -/
def lcase (c : Char) : Char :=
  if 'A' ≤ c ∧ c ≤ 'Z' then Char.ofNat (c.toNat + 32) else c

/-! ## Data model: the relational tables (spec §3) -/

/-- A row of the `users` table. -/
structure User where
  id : Nat
  username : String
  email : String
  password_hash : String
  location_city : String
  location_region : String
  bio : Option String
  created_at : String
  updated_at : String
  deriving Repr, DecidableEq

/-- A row of the `sets` table. -/
structure CardSet where
  id : Nat
  name : String
  series : String
  deriving Repr, DecidableEq

/-- A row of the `cards` table. -/
structure Card where
  id : Nat
  set_id : Nat
  name : String
  card_number : String
  rarity : String
  image_url : String
  deriving Repr, DecidableEq

/-- A row of the `listings` table.  Prices are exact decimals, modelled as
rationals. -/
structure Listing where
  id : Nat
  card_id : Nat
  user_id : Nat
  price : ℚ
  quantity : Nat
  condition : String
  description : String
  status : String
  created_at : String
  deriving Repr, DecidableEq

/-- A row of the `user_cards` table (`is_public` is a 0/1 integer column,
modelled as `Bool`). -/
structure UserCard where
  id : Nat
  user_id : Nat
  card_id : Nat
  list_type : String
  is_public : Bool
  condition : String
  target_price : Option ℚ
  deriving Repr, DecidableEq

/-- The database state: each table as an ordered list of rows (list order =
rowid order).  The events tables are not needed by any verified claim. -/
structure DB where
  users : List User
  sets : List CardSet
  cards : List Card
  listings : List Listing
  user_cards : List UserCard
  deriving Repr, DecidableEq

/-! ## Auth component -/

/-- The relevant part of the Flask session: the `user_id` and `username`
keys, each possibly unset. -/
structure Session where
  user_id : Option Nat
  username : Option String
  deriving Repr, DecidableEq

/-- Interface of the external password-hash library (werkzeug's
`generate_password_hash` / `check_password_hash`).  The extra `Nat`
argument of `gen` models the library's internally generated random salt. -/
structure HashScheme where
  gen : String → Nat → String
  check : String → String → Bool

/-- Idealised correctness of the salted one-way hash: checking a candidate
password against a stored hash succeeds exactly when the passwords
coincide (collision-freeness idealisation of the external library). -/
def HashSound (H : HashScheme) : Prop :=
  ∀ p s q, H.check (H.gen p s) q = (p == q)

/-- A trivial concrete hash scheme, used to instantiate witnesses. -/
def plainHash : HashScheme :=
  { gen := fun p _ => p, check := fun h q => h == q }

theorem plainHash_sound : HashSound plainHash := fun _ _ _ => rfl

/-- Outcome of the `register` route's POST branch. -/
inductive RegisterResult where
  | success (uid : Nat)
  | usernameOrEmailTaken
  deriving Repr, DecidableEq

/-- The `lastrowid` after inserting into `users`: SQLite assigns one more than
the largest existing rowid. -/
def nextUserId (db : DB) : Nat :=
  (db.users.map (·.id)).foldr max 0 + 1

/-- The User row inserted by a successful registration. -/
def newUser (H : HashScheme) (salt : Nat) (db : DB)
    (username email password city region now : String) : User :=
  { id := nextUserId db, username := username, email := email,
    password_hash := H.gen password salt,
    location_city := city, location_region := region,
    bio := none, created_at := now, updated_at := now }

/-- The POST branch of the `register` route: a `SELECT id FROM users WHERE
username = ? OR email = ?` existence check, then either a flash-and-stay
(no insert) or an `INSERT INTO users`. -/
def register (H : HashScheme) (salt : Nat) (db : DB)
    (username email password city region now : String) : RegisterResult × DB :=
  match db.users.find? (fun u => u.username == username || u.email == email) with
  | some _ => (.usernameOrEmailTaken, db)
  | none =>
      let u : User := newUser H salt db username email password city region now
      (.success u.id, { db with users := db.users ++ [u] })

/-- Outcome of the `login` route's POST branch. -/
inductive LoginResult where
  | success (uid : Nat) (uname : String)
  | invalidCredentials
  deriving Repr, DecidableEq

/-- Observable output of a `login` POST: the outcome, the resulting session
state, and the flashed (message, category) pairs. -/
structure LoginOut where
  result : LoginResult
  sess : Session
  flashes : List (String × String)
  deriving Repr, DecidableEq

/-- The POST branch of the `login` route: `SELECT * FROM users WHERE
username = ?` (first row), then a password-hash check; on success the
session is bound to the user's identity, otherwise a single
indistinguishable error flash is produced and the session is untouched. -/
def login (H : HashScheme) (db : DB) (sess : Session)
    (username password : String) : LoginOut :=
  match db.users.find? (fun u => u.username == username) with
  | some u =>
      if H.check u.password_hash password then
        { result := .success u.id u.username,
          sess := { user_id := some u.id, username := some u.username },
          flashes := [("Login successful!", "success")] }
      else
        { result := .invalidCredentials, sess := sess,
          flashes := [("Invalid username or password", "error")] }
  | none =>
      { result := .invalidCredentials, sess := sess,
        flashes := [("Invalid username or password", "error")] }

/-! ## Claims about the auth component -/

/-- C1: a registration attempt whose username or email equals that of an
existing User row returns `usernameOrEmailTaken` and leaves the whole
database (in particular the users table) unchanged. -/
theorem register_taken_no_insert (H : HashScheme) (salt : Nat) (db : DB)
    (un em pw city region now : String)
    (h : ∃ u ∈ db.users, u.username = un ∨ u.email = em) :
    register H salt db un em pw city region now = (.usernameOrEmailTaken, db) := by
  obtain ⟨u, hu, hor⟩ := h
  rcases hfind : db.users.find? (fun u => u.username == un || u.email == em) with _ | v
  · rw [List.find?_eq_none] at hfind
    exact absurd (by cases hor with
      | inl h => simp [h]
      | inr h => simp [h]) (hfind u hu)
  · simp [register, hfind]

def ashUser : User :=
  { id := 1, username := "ash", email := "ash@example.com",
    password_hash := "pikachu123", location_city := "Pallet",
    location_region := "Kanto", bio := none,
    created_at := "2026-01-01", updated_at := "2026-01-01" }

def authDB : DB :=
  { users := [ashUser], sets := [], cards := [], listings := [], user_cards := [] }

theorem register_taken_no_insert_witness :
    (∃ u ∈ authDB.users, u.username = "ash" ∨ u.email = "other@example.com") ∧
    register plainHash 0 authDB "ash" "other@example.com" "pw" "" "" "t"
      = (.usernameOrEmailTaken, authDB) :=
  ⟨by decide,
   register_taken_no_insert plainHash 0 authDB "ash" "other@example.com"
     "pw" "" "" "t" (by decide)⟩

/-- C2: after a successful registration, logging in with the registered
username and password succeeds and yields the new user's identity, while
logging in with the registered username and any different password yields
`invalidCredentials`. -/
theorem register_login_roundtrip (H : HashScheme) (hH : HashSound H) (salt : Nat)
    (db : DB) (sess sess' : Session) (un em pw pw' city region now : String)
    (uid : Nat)
    (hreg : (register H salt db un em pw city region now).1 = .success uid)
    (hpw : pw' ≠ pw) :
    (login H (register H salt db un em pw city region now).2 sess un pw).result
      = .success uid un ∧
    (login H (register H salt db un em pw city region now).2 sess' un pw').result
      = .invalidCredentials := by
  rcases hfind : db.users.find? (fun u => u.username == un || u.email == em) with _ | v
  · have hnone := List.find?_eq_none.mp hfind
    simp only [register, hfind] at hreg ⊢
    have h1 : db.users.find? (fun u => u.username == un) = none := by
      rw [List.find?_eq_none]
      intro u hu
      have := hnone u hu
      simp only [Bool.or_eq_true, not_or, beq_iff_eq] at this
      simpa using this.1
    have h2 : (db.users ++ [newUser H salt db un em pw city region now]).find?
        (fun u => u.username == un)
        = some (newUser H salt db un em pw city region now) := by
      rw [List.find?_append, h1]
      simp [newUser]
    have hid : nextUserId db = uid := by simpa [newUser] using hreg
    constructor
    · simp only [login, h2]
      rw [show (newUser H salt db un em pw city region now).password_hash
            = H.gen pw salt from rfl, hH pw salt pw]
      simp [newUser, hid]
    · have hne : (pw == pw') = false := by
        simpa using fun e => hpw e.symm
      simp only [login, h2]
      rw [show (newUser H salt db un em pw city region now).password_hash
            = H.gen pw salt from rfl, hH pw salt pw', hne]
      simp
  · rw [register] at hreg
    rw [hfind] at hreg
    simp at hreg

def emptySess : Session := { user_id := none, username := none }

def emptyDB : DB :=
  { users := [], sets := [], cards := [], listings := [], user_cards := [] }

theorem register_login_roundtrip_witness :
    HashSound plainHash ∧
    (register plainHash 0 emptyDB "ash" "ash@example.com" "pikachu123" "" "" "t").1
      = .success 1 ∧
    ("wrong" : String) ≠ "pikachu123" ∧
    ((login plainHash
        (register plainHash 0 emptyDB "ash" "ash@example.com" "pikachu123" "" "" "t").2
        emptySess "ash" "pikachu123").result = .success 1 "ash" ∧
      (login plainHash
        (register plainHash 0 emptyDB "ash" "ash@example.com" "pikachu123" "" "" "t").2
        emptySess "ash" "wrong").result = .invalidCredentials) :=
  ⟨plainHash_sound, by decide, by decide,
   register_login_roundtrip plainHash plainHash_sound 0 emptyDB emptySess emptySess
     "ash" "ash@example.com" "pikachu123" "wrong" "" "" "t" 1 (by decide) (by decide)⟩

/-- C3: the two authentication failure modes — unknown username, and known
username with a failing hash comparison — produce the same
`invalidCredentials` outcome and the same user-facing flash message, so a
caller cannot distinguish them. -/
theorem login_failures_indistinguishable (H : HashScheme) (db1 db2 : DB)
    (s1 s2 : Session) (u1 p1 u2 p2 : String) (v : User)
    (h1 : db1.users.find? (fun u => u.username == u1) = none)
    (h2 : db2.users.find? (fun u => u.username == u2) = some v)
    (h3 : H.check v.password_hash p2 = false) :
    (login H db1 s1 u1 p1).result = .invalidCredentials ∧
    (login H db2 s2 u2 p2).result = .invalidCredentials ∧
    (login H db1 s1 u1 p1).flashes = (login H db2 s2 u2 p2).flashes := by
  simp [login, h1, h2, h3]

theorem login_failures_indistinguishable_witness :
    (emptyDB.users.find? (fun u => u.username == "misty") = none) ∧
    (authDB.users.find? (fun u => u.username == "ash") = some ashUser) ∧
    (plainHash.check ashUser.password_hash "wrong" = false) ∧
    ((login plainHash emptyDB emptySess "misty" "x").result = .invalidCredentials ∧
     (login plainHash authDB emptySess "ash" "wrong").result = .invalidCredentials ∧
     (login plainHash emptyDB emptySess "misty" "x").flashes
       = (login plainHash authDB emptySess "ash" "wrong").flashes) :=
  ⟨by decide, by decide, by decide,
   login_failures_indistinguishable plainHash emptyDB authDB emptySess emptySess
     "misty" "x" "ash" "wrong" ashUser (by decide) (by decide) (by decide)⟩

/-- C9: a failed authentication attempt (unknown username or wrong
password) leaves the session state unchanged; identity is bound to the
session only on success. -/
theorem login_failure_preserves_session (H : HashScheme) (db : DB)
    (sess : Session) (un pw : String)
    (h : (login H db sess un pw).result = .invalidCredentials) :
    (login H db sess un pw).sess = sess := by
  rcases hfind : db.users.find? (fun u => u.username == un) with _ | v
  · simp [login, hfind]
  · cases hc : H.check v.password_hash pw
    · simp [login, hfind, hc]
    · simp [login, hfind, hc] at h

theorem login_failure_preserves_session_witness :
    ((login plainHash authDB emptySess "ash" "wrong").result
      = .invalidCredentials) ∧
    (login plainHash authDB emptySess "ash" "wrong").sess = emptySess :=
  ⟨by decide,
   login_failure_preserves_session plainHash authDB emptySess "ash" "wrong"
     (by decide)⟩

/-! ## SQLite `LIKE` pattern matching

The `/cards` route interpolates the raw search string into a `LIKE`
pattern (`f'%{search}%'`), so the pattern language itself must be
embedded: `%` matches any sequence of characters, `_` matches exactly one
character, and every other character matches ASCII-case-insensitively. -/

/-- Star matching: try the continuation on every suffix of the text. -/
def likeStar (f : List Char → Bool) : List Char → Bool
  | [] => f []
  | d :: t => f (d :: t) || likeStar f t

def likeM : List Char → List Char → Bool
  | [], t => t.isEmpty
  | c :: p, t =>
    if c = '%' then
      likeStar (likeM p) t
    else
      match t with
      | [] => false
      | d :: t' => (if c = '_' then true else lcase c == lcase d) && likeM p t'

theorem likeM_nil (t : List Char) : likeM [] t = t.isEmpty := rfl

theorem likeM_pct_nilT (p : List Char) : likeM ('%' :: p) [] = likeM p [] := rfl

theorem likeM_pct_consT (p : List Char) (d : Char) (t : List Char) :
    likeM ('%' :: p) (d :: t) = (likeM p (d :: t) || likeM ('%' :: p) t) := rfl

theorem likeM_cons (c : Char) (p : List Char) (d : Char) (t : List Char)
    (hc : c ≠ '%') :
    likeM (c :: p) (d :: t)
      = ((if c = '_' then true else lcase c == lcase d) && likeM p t) := by
  show (if c = '%' then likeStar (likeM p) (d :: t)
        else (if c = '_' then true else lcase c == lcase d) && likeM p t) = _
  rw [if_neg hc]

theorem likeM_cons_nilT (c : Char) (p : List Char) (hc : c ≠ '%') :
    likeM (c :: p) [] = false := by
  show (if c = '%' then likeStar (likeM p) [] else false) = false
  rw [if_neg hc]

/-- A leading `%` matches exactly when the rest of the pattern matches some
suffix of the text. -/
theorem likeM_pct_iff (p t : List Char) :
    likeM ('%' :: p) t = true ↔ ∃ t', t' <:+ t ∧ likeM p t' = true := by
  induction t with
  | nil =>
    rw [likeM_pct_nilT]
    constructor
    · exact fun h => ⟨[], List.suffix_refl [], h⟩
    · rintro ⟨t', ht', h⟩
      rw [List.suffix_nil] at ht'
      exact ht' ▸ h
  | cons d t ih =>
    rw [likeM_pct_consT, Bool.or_eq_true, ih]
    constructor
    · rintro (h | ⟨t', ht', h⟩)
      · exact ⟨d :: t, List.suffix_refl _, h⟩
      · exact ⟨t', ht'.trans (List.suffix_cons d t), h⟩
    · rintro ⟨t', ht', h⟩
      rcases List.suffix_cons_iff.mp ht' with rfl | ht'
      · exact Or.inl h
      · exact Or.inr ⟨t', ht', h⟩

/-- The search string is free of the `LIKE` wildcard characters. -/
def noWild (s : List Char) : Prop := ∀ c ∈ s, c ≠ '%' ∧ c ≠ '_'

instance (s : List Char) : Decidable (noWild s) :=
  List.decidableBAll _ s

/-- A wildcard-free pattern followed by `%` matches exactly the texts having
it as an ASCII-case-insensitive prefix. -/
theorem likeM_pfx_iff (s : List Char) (h : noWild s) (t : List Char) :
    likeM (s ++ ['%']) t = true ↔ s.map lcase <+: t.map lcase := by
  induction s generalizing t with
  | nil =>
    rw [List.nil_append]
    constructor
    · intro _
      exact ⟨t.map lcase, rfl⟩
    · intro _
      rw [likeM_pct_iff]
      exact ⟨[], List.nil_suffix, by rw [likeM_nil]; rfl⟩
  | cons c s ih =>
    have hc := h c (List.mem_cons_self c s)
    have hs : noWild s := fun x hx => h x (List.mem_cons_of_mem c hx)
    cases t with
    | nil =>
      rw [List.cons_append, likeM_cons_nilT _ _ hc.1]
      simp
    | cons d t =>
      rw [List.cons_append, likeM_cons _ _ _ _ hc.1, if_neg hc.2,
        Bool.and_eq_true, beq_iff_eq, List.map_cons, List.map_cons,
        List.cons_prefix_cons, ih hs t]

/-- The full `'%' ++ s ++ '%'` pattern produced by the `/cards` route
matches, for a wildcard-free `s`, exactly the texts containing `s` as an
ASCII-case-insensitive contiguous substring. -/
theorem likeM_substring_iff (s : List Char) (h : noWild s) (t : List Char) :
    likeM ('%' :: (s ++ ['%'])) t = true ↔ s.map lcase <:+: t.map lcase := by
  rw [likeM_pct_iff]
  constructor
  · rintro ⟨t', ht', hm⟩
    obtain ⟨a, ha⟩ := (likeM_pfx_iff s h t').mp hm
    obtain ⟨b, hb⟩ := List.IsSuffix.map lcase ht'
    exact ⟨b, a, by rw [List.append_assoc, ha, hb]⟩
  · rintro ⟨u, v, huv⟩
    refine ⟨t.drop u.length, ⟨t.take u.length, List.take_append_drop _ _⟩, ?_⟩
    rw [likeM_pfx_iff s h]
    have hd : (t.drop u.length).map lcase = s.map lcase ++ v := by
      rw [List.map_drop, ← huv, List.append_assoc, List.drop_left]
    exact ⟨v, hd.symm⟩

/-- Modelled from the spec's words: the free-text search filter matches a
card name when the search string occurs in the name as a case-insensitive
contiguous substring. -/
def specContains (search name : String) : Prop :=
  search.data.map lcase <:+: name.data.map lcase

instance (search name : String) : Decidable (specContains search name) :=
  inferInstanceAs (Decidable (search.data.map lcase <:+: name.data.map lcase))

/-! ## Aggregates and joins -/

/-- The rows contributed by a `LEFT JOIN` arm: the matching rows, or one
all-NULL row when there is no match. -/
def nullableJoin {α : Type} (xs : List α) : List (Option α) :=
  if xs.isEmpty then [none] else xs.map some

theorem nullableJoin_ne_nil {α : Type} (xs : List α) : nullableJoin xs ≠ [] := by
  cases xs <;> simp [nullableJoin]

theorem some_mem_nullableJoin {α : Type} (a : α) (xs : List α) :
    some a ∈ nullableJoin xs ↔ a ∈ xs := by
  cases xs <;> simp [nullableJoin]

/-- SQL `MIN` over a list of values: the least element, or `none` for an
empty list. -/
def minOpt : List ℚ → Option ℚ
  | [] => none
  | x :: xs =>
      some (match minOpt xs with
            | none => x
            | some m => min x m)

theorem minOpt_eq_none (xs : List ℚ) : minOpt xs = none ↔ xs = [] := by
  cases xs <;> simp [minOpt]

theorem minOpt_eq_some (xs : List ℚ) (m : ℚ) :
    minOpt xs = some m ↔ m ∈ xs ∧ ∀ x ∈ xs, m ≤ x := by
  induction xs generalizing m with
  | nil => simp [minOpt]
  | cons x xs ih =>
    rcases hm : minOpt xs with _ | m'
    · have hnil := (minOpt_eq_none xs).mp hm
      subst hnil
      constructor
      · intro h
        have hx : x = m := by simpa [minOpt] using h
        subst hx
        exact ⟨List.mem_singleton_self x, by simp⟩
      · rintro ⟨hmem, _⟩
        have : m = x := by simpa using hmem
        subst this
        simp [minOpt]
    · have hm' := (ih m').mp hm
      have hval : minOpt (x :: xs) = some (min x m') := by
        simp [minOpt, hm]
      rw [hval]
      constructor
      · intro h
        have hmm : min x m' = m := by simpa using h
        subst hmm
        refine ⟨?_, ?_⟩
        · rcases min_choice x m' with h | h <;> rw [h]
          · exact List.mem_cons_self x xs
          · exact List.mem_cons_of_mem x hm'.1
        · intro y hy
          rcases List.mem_cons.mp hy with rfl | hy
          · exact min_le_left _ _
          · exact le_trans (min_le_right x m') (hm'.2 y hy)
      · rintro ⟨hmem, hall⟩
        have h1 : m ≤ min x m' :=
          le_min (hall x (List.mem_cons_self x xs))
            (hall m' (List.mem_cons_of_mem x hm'.1))
        have h2 : min x m' ≤ m := by
          rcases List.mem_cons.mp hmem with rfl | hmem
          · exact min_le_left _ _
          · exact le_trans (min_le_right x m') (hm'.2 m hmem)
        rw [le_antisymm h2 h1]

theorem minOpt_congr {xs ys : List ℚ} (h : ∀ x, x ∈ xs ↔ x ∈ ys) :
    minOpt xs = minOpt ys := by
  rcases hm : minOpt xs with _ | m
  · rw [minOpt_eq_none] at hm
    subst hm
    symm
    rw [minOpt_eq_none, List.eq_nil_iff_forall_not_mem]
    exact fun x hx => by simpa using (h x).mpr hx
  · symm
    rw [minOpt_eq_some]
    rw [minOpt_eq_some] at hm
    exact ⟨(h m).mp hm.1, fun y hy => hm.2 y ((h y).mpr hy)⟩

/-- SQL `MIN(column)` as an aggregate over possibly-NULL grouped values:
NULLs are ignored, and the aggregate is NULL when every value is. -/
def sqlMin (xs : List (Option ℚ)) : Option ℚ :=
  minOpt (xs.filterMap id)

/-- SQL `COUNT(DISTINCT e)`: the number of distinct non-NULL values. -/
def sqlCountDistinct (xs : List (Option Nat)) : Nat :=
  (xs.filterMap id).dedup.length

/-! ## Card catalog (`/cards` route) -/

/-- The active listings joined to one card by
`LEFT JOIN listings ON cards.id = listings.card_id AND listings.status = 'active'`. -/
def activeListingsFor (db : DB) (cid : Nat) : List Listing :=
  db.listings.filter (fun l => l.card_id == cid && l.status == "active")

/-- The rows joined by `LEFT JOIN user_cards uc_have ON ... AND uc_have.list_type = 'have'`. -/
def havesFor (db : DB) (cid : Nat) : List UserCard :=
  db.user_cards.filter (fun uc => uc.card_id == cid && uc.list_type == "have")

/-- The rows joined by `LEFT JOIN user_cards uc_want ON ... AND uc_want.list_type = 'want'`. -/
def wantsFor (db : DB) (cid : Nat) : List UserCard :=
  db.user_cards.filter (fun uc => uc.card_id == cid && uc.list_type == "want")

/-- One row of the three-way left-join cross product underlying a card's
group in the catalog query. -/
structure CatalogJoinRow where
  uc_have : Option UserCard
  uc_want : Option UserCard
  listing : Option Listing
  deriving Repr, DecidableEq

/-- The joined rows grouped under one card by `GROUP BY cards.id`. -/
def catalogJoinRows (db : DB) (cid : Nat) : List CatalogJoinRow :=
  (nullableJoin (havesFor db cid)).flatMap fun h =>
    (nullableJoin (wantsFor db cid)).flatMap fun w =>
      (nullableJoin (activeListingsFor db cid)).map fun l =>
        { uc_have := h, uc_want := w, listing := l }

/-- The `MIN(listings.price)` aggregate computed over a card's group. -/
def floorPriceOf (db : DB) (cid : Nat) : Option ℚ :=
  sqlMin ((catalogJoinRows db cid).map fun r => r.listing.map (·.price))

/-- One result row of the catalog query (`cards.*`, the joined set columns,
and the three aggregates). -/
structure CatalogRow where
  card : Card
  set_name : String
  series : String
  have_count : Nat
  want_count : Nat
  floor_price : Option ℚ
  deriving Repr, DecidableEq

/-- The result row the catalog query produces for card `c` joined to set `s`. -/
def mkCatalogRow (db : DB) (c : Card) (s : CardSet) : CatalogRow :=
  { card := c, set_name := s.name, series := s.series,
    have_count := sqlCountDistinct ((catalogJoinRows db c.id).map
        fun r => r.uc_have.map (·.id)),
    want_count := sqlCountDistinct ((catalogJoinRows db c.id).map
        fun r => r.uc_want.map (·.id)),
    floor_price := floorPriceOf db c.id }

/-- The `ORDER BY cards.name` order (ascending under SQLite's byte-wise BINARY
collation, which on UTF-8 text coincides with codepoint order). -/
def catalogOrder (a b : CatalogRow) : Prop := ¬ b.card.name < a.card.name

instance : DecidableRel catalogOrder := fun _ _ =>
  inferInstanceAs (Decidable (¬ _ < _))

/-- The `/cards` route: inner-join cards to sets, apply the optional
`search` (`cards.name LIKE '%search%'`) and `set` (`sets.id = ?`) filters
conjunctively — an empty/absent filter adds no condition — then group per
card and order by name.  The `WHERE` conditions only mention per-card
columns, so filtering before grouping is exact. -/
def cardsQuery (db : DB) (search : String) (setf : Option Nat) : List CatalogRow :=
  List.insertionSort catalogOrder
    (((db.cards.filterMap fun c =>
          (db.sets.find? fun s => s.id == c.set_id).map fun s => (c, s))
        |>.filter fun cs =>
          (search == "" || likeM ("%" ++ search ++ "%").data cs.1.name.data) &&
          (match setf with
           | none => true
           | some v => cs.2.id == v))
      |>.map fun cs => mkCatalogRow db cs.1 cs.2)

/-! ## Listings page (`/listings` route) -/

/-- One result row of the listings-page query (`listings.*` plus the joined
card, set and seller columns). -/
structure ListingPageRow where
  listing : Listing
  card_name : String
  card_image : String
  set_name : String
  username : String
  deriving Repr, DecidableEq

/-- The `ORDER BY listings.created_at DESC` order. -/
def createdDescOrder (a b : ListingPageRow) : Prop :=
  ¬ a.listing.created_at < b.listing.created_at

instance : DecidableRel createdDescOrder := fun _ _ =>
  inferInstanceAs (Decidable (¬ _ < _))

/-- The `/listings` route: all listings with `status = 'active'`,
inner-joined to their card, set and seller, newest first. -/
def listingsQuery (db : DB) : List ListingPageRow :=
  List.insertionSort createdDescOrder
    (db.listings.filterMap fun l =>
      if l.status == "active" then
        (db.cards.find? fun c => c.id == l.card_id).bind fun c =>
          (db.sets.find? fun s => s.id == c.set_id).bind fun s =>
            (db.users.find? fun u => u.id == l.user_id).map fun u =>
              { listing := l, card_name := c.name, card_image := c.image_url,
                set_name := s.name, username := u.username }
      else none)

/-! ## Card detail (`/cards/<id>` route) -/

/-- One row of the card-detail listings query (`listings.*` plus the
seller's username and location). -/
structure DetailListing where
  listing : Listing
  username : String
  location_city : String
  location_region : String
  deriving Repr, DecidableEq

/-- The `ORDER BY listings.price` order (ascending). -/
def priceOrder (x y : DetailListing) : Prop :=
  x.listing.price ≤ y.listing.price

instance : DecidableRel priceOrder := fun _ _ =>
  inferInstanceAs (Decidable (_ ≤ _))

instance : IsTotal DetailListing priceOrder := ⟨fun _ _ => le_total _ _⟩

instance : IsTrans DetailListing priceOrder := ⟨fun _ _ _ => le_trans⟩

/-- One card-detail listings row, from a listing and its joined seller. -/
def detailRowFor (l : Listing) (u : User) : DetailListing :=
  { listing := l, username := u.username,
    location_city := u.location_city,
    location_region := u.location_region }

/-- The pre-sort rows of the card-detail listings query: the card's active
listings inner-joined to their sellers. -/
def cardDetailBase (db : DB) (cid : Nat) : List DetailListing :=
  db.listings.filterMap fun l =>
    if l.card_id == cid && l.status == "active" then
      (db.users.find? fun u => u.id == l.user_id).map (detailRowFor l)
    else none

/-- The card-detail page's listings: active listings of the card, cheapest
first. -/
def cardDetailListings (db : DB) (cid : Nat) : List DetailListing :=
  List.insertionSort priceOrder (cardDetailBase db cid)

/-- One row of the card-detail public have/want queries (`user_cards.*`
plus the owner's username). -/
structure PublicUC where
  uc : UserCard
  username : String
  deriving Repr, DecidableEq

/-- The card-detail page's public haves:
`WHERE card_id = ? AND list_type = 'have' AND is_public = 1`, joined to users. -/
def cardDetailHaves (db : DB) (cid : Nat) : List PublicUC :=
  db.user_cards.filterMap fun uc =>
    if uc.card_id == cid && uc.list_type == "have" && uc.is_public then
      (db.users.find? fun u => u.id == uc.user_id).map fun u =>
        { uc := uc, username := u.username }
    else none

/-- The card-detail page's public wants:
`WHERE card_id = ? AND list_type = 'want' AND is_public = 1`, joined to users. -/
def cardDetailWants (db : DB) (cid : Nat) : List PublicUC :=
  db.user_cards.filterMap fun uc =>
    if uc.card_id == cid && uc.list_type == "want" && uc.is_public then
      (db.users.find? fun u => u.id == uc.user_id).map fun u =>
        { uc := uc, username := u.username }
    else none

/-- The whole `/cards/<id>` view-model: not-found redirect, or the card
with its listings and public haves/wants. -/
inductive CardDetail where
  | notFound
  | page (card : Card) (set_name : String) (series : String)
      (listings : List DetailListing) (haves wants : List PublicUC)
  deriving Repr, DecidableEq

def card_detail (db : DB) (cid : Nat) : CardDetail :=
  match (db.cards.find? fun c => c.id == cid).bind
      (fun c => (db.sets.find? fun s => s.id == c.set_id).map fun s => (c, s)) with
  | none => .notFound
  | some (c, s) =>
      .page c s.name s.series (cardDetailListings db cid)
        (cardDetailHaves db cid) (cardDetailWants db cid)

/-! ## Binders (`/binders`, `/binders/<username>`, `/my-binder` routes) -/

/-- One result row of the `/binders` query: `users.*` plus three
`COUNT(DISTINCT ...)` aggregates. -/
structure BindersRow where
  user : User
  have_count : Nat
  want_count : Nat
  listing_count : Nat
  deriving Repr, DecidableEq

/-- The two-way left-join cross product grouped under one user by the
`/binders` query (`LEFT JOIN user_cards` with no public filter,
`LEFT JOIN listings ... AND listings.status = 'active'`). -/
def bindersJoinRows (db : DB) (uid : Nat) : List (Option UserCard × Option Listing) :=
  (nullableJoin (db.user_cards.filter fun uc => uc.user_id == uid)).flatMap fun uc =>
    (nullableJoin (db.listings.filter fun l =>
        l.user_id == uid && l.status == "active")).map fun l => (uc, l)

/-- The `/binders` result row for one user, with
`COUNT(DISTINCT CASE WHEN list_type = '...' THEN user_cards.id END)`
and `COUNT(DISTINCT listings.id)` computed over the group. -/
def bindersRowFor (db : DB) (u : User) : BindersRow :=
  let rows := bindersJoinRows db u.id
  { user := u,
    have_count := sqlCountDistinct (rows.map fun r =>
      r.1.bind fun uc => if uc.list_type == "have" then some uc.id else none),
    want_count := sqlCountDistinct (rows.map fun r =>
      r.1.bind fun uc => if uc.list_type == "want" then some uc.id else none),
    listing_count := sqlCountDistinct (rows.map fun r => r.2.map (·.id)) }

/-- The `ORDER BY have_count DESC` order. -/
def haveDescOrder (x y : BindersRow) : Prop := y.have_count ≤ x.have_count

instance : DecidableRel haveDescOrder := fun _ _ =>
  inferInstanceAs (Decidable (_ ≤ _))

/-- The `/binders` route: one row per user with have/want/listing counts,
most haves first.  The `user_cards` join carries no `is_public` condition. -/
def bindersQuery (db : DB) : List BindersRow :=
  List.insertionSort haveDescOrder (db.users.map (bindersRowFor db))

/-- One row of the binder-contents queries (`user_cards.*` plus joined card
and set columns). -/
structure BinderCardRow where
  uc : UserCard
  card_name : String
  card_image : String
  set_name : String
  deriving Repr, DecidableEq

/-- The `ORDER BY cards.name` order. -/
def binderOrder (x y : BinderCardRow) : Prop := ¬ y.card_name < x.card_name

instance : DecidableRel binderOrder := fun _ _ =>
  inferInstanceAs (Decidable (¬ _ < _))

/-- The `/binders/<username>` contents query for one list type:
`WHERE user_id = ? AND list_type = ? AND is_public = 1`, joined to cards
and sets, ordered by card name. -/
def publicBinderRows (db : DB) (uid : Nat) (lt : String) : List BinderCardRow :=
  List.insertionSort binderOrder
    (db.user_cards.filterMap fun uc =>
      if uc.user_id == uid && uc.list_type == lt && uc.is_public then
        (db.cards.find? fun c => c.id == uc.card_id).bind fun c =>
          (db.sets.find? fun s => s.id == c.set_id).map fun s =>
            { uc := uc, card_name := c.name, card_image := c.image_url,
              set_name := s.name }
      else none)

/-- The `/my-binder` contents query for one list type:
`WHERE user_id = ? AND list_type = ?` — no `is_public` condition. -/
def myBinderRows (db : DB) (uid : Nat) (lt : String) : List BinderCardRow :=
  List.insertionSort binderOrder
    (db.user_cards.filterMap fun uc =>
      if uc.user_id == uid && uc.list_type == lt then
        (db.cards.find? fun c => c.id == uc.card_id).bind fun c =>
          (db.sets.find? fun s => s.id == c.set_id).map fun s =>
            { uc := uc, card_name := c.name, card_image := c.image_url,
              set_name := s.name }
      else none)

/-- The `/binders/<username>` active-listings section. -/
def userActiveListings (db : DB) (uid : Nat) : List (Listing × String × String) :=
  db.listings.filterMap fun l =>
    if l.user_id == uid && l.status == "active" then
      (db.cards.find? fun c => c.id == l.card_id).map fun c =>
        (l, c.name, c.image_url)
    else none

/-- The `/binders/<username>` view-model (`none` models the user-not-found
redirect).  It does not depend on who is viewing. -/
structure UserBinderView where
  user : User
  haves : List BinderCardRow
  wants : List BinderCardRow
  listings : List (Listing × String × String)
  deriving Repr, DecidableEq

def user_binder (db : DB) (username : String) : Option UserBinderView :=
  (db.users.find? fun u => u.username == username).map fun u =>
    { user := u,
      haves := publicBinderRows db u.id "have",
      wants := publicBinderRows db u.id "want",
      listings := userActiveListings db u.id }

/-- The `/my-binder` view-model: `none` models the login redirect for a
session with no `user_id`; otherwise the session user's own haves and
wants, private rows included. -/
def my_binder (db : DB) (sess : Session) :
    Option (List BinderCardRow × List BinderCardRow) :=
  sess.user_id.map fun uid => (myBinderRows db uid "have", myBinderRows db uid "want")

/-! ## Claims about listing visibility and the floor price -/

/-- C5: a listing whose status is not `'active'` never occurs in the
listings page, in the card-detail listings, or among the joined rows over
which the catalog's floor-price aggregate is computed. -/
theorem inactive_listing_invisible (db : DB) (l : Listing)
    (h : l.status ≠ "active") :
    (∀ r ∈ listingsQuery db, r.listing ≠ l) ∧
    (∀ cid, ∀ r ∈ cardDetailListings db cid, r.listing ≠ l) ∧
    (∀ cid, ∀ r ∈ catalogJoinRows db cid, r.listing ≠ some l) := by
  refine ⟨?_, ?_, ?_⟩
  · intro r hr
    simp only [listingsQuery, List.mem_insertionSort, List.mem_filterMap] at hr
    obtain ⟨a, _, hfa⟩ := hr
    by_cases hs : (a.status == "active") = true
    · rw [if_pos hs] at hfa
      simp only [Option.bind_eq_some, Option.map_eq_some'] at hfa
      obtain ⟨c, _, s, _, u, _, hru⟩ := hfa
      intro hrl
      rw [← hru] at hrl
      exact h (by rw [← hrl]; exact beq_iff_eq.mp hs)
    · rw [if_neg hs] at hfa
      cases hfa
  · intro cid r hr
    simp only [cardDetailListings, cardDetailBase, List.mem_insertionSort,
      List.mem_filterMap] at hr
    obtain ⟨a, _, hfa⟩ := hr
    by_cases hs : (a.card_id == cid && a.status == "active") = true
    · rw [if_pos hs] at hfa
      simp only [Option.map_eq_some'] at hfa
      obtain ⟨u, _, hru⟩ := hfa
      intro hrl
      rw [← hru] at hrl
      rw [Bool.and_eq_true, beq_iff_eq, beq_iff_eq] at hs
      exact h (by rw [← hrl]; exact hs.2)
    · rw [if_neg hs] at hfa
      cases hfa
  · intro cid r hr
    simp only [catalogJoinRows, List.mem_flatMap, List.mem_map] at hr
    obtain ⟨h0, _, w0, _, l0, hl0, hrw⟩ := hr
    intro hrl
    rw [← hrw] at hrl
    simp only at hrl
    rw [hrl, some_mem_nullableJoin, activeListingsFor, List.mem_filter,
      Bool.and_eq_true, beq_iff_eq, beq_iff_eq] at hl0
    exact h hl0.2.2

def soldListing : Listing :=
  { id := 1, card_id := 1, user_id := 1, price := 5, quantity := 1,
    condition := "NM", description := "", status := "sold",
    created_at := "2026-01-02" }

def baseSet : CardSet := { id := 1, name := "Base Set", series := "Original" }

def charizardCard : Card :=
  { id := 1, set_id := 1, name := "Charizard", card_number := "4",
    rarity := "Holo Rare", image_url := "" }

def soldDB : DB :=
  { users := [ashUser], sets := [baseSet], cards := [charizardCard],
    listings := [soldListing], user_cards := [] }

theorem inactive_listing_invisible_witness :
    (soldListing.status ≠ "active") ∧
    ((∀ r ∈ listingsQuery soldDB, r.listing ≠ soldListing) ∧
     (∀ cid, ∀ r ∈ cardDetailListings soldDB cid, r.listing ≠ soldListing) ∧
     (∀ cid, ∀ r ∈ catalogJoinRows soldDB cid, r.listing ≠ some soldListing)) :=
  ⟨by decide, inactive_listing_invisible soldDB soldListing (by decide)⟩

theorem mem_catalogJoinRows (db : DB) (cid : Nat) (r : CatalogJoinRow) :
    r ∈ catalogJoinRows db cid ↔
      r.uc_have ∈ nullableJoin (havesFor db cid) ∧
      r.uc_want ∈ nullableJoin (wantsFor db cid) ∧
      r.listing ∈ nullableJoin (activeListingsFor db cid) := by
  simp only [catalogJoinRows, List.mem_flatMap, List.mem_map]
  constructor
  · rintro ⟨h0, hh, w0, hw, lo, hlo, rfl⟩
    exact ⟨hh, hw, hlo⟩
  · rintro ⟨hh, hw, hlo⟩
    exact ⟨r.uc_have, hh, r.uc_want, hw, r.listing, hlo, rfl⟩

/-- The cross product with the two `user_cards` join arms does not change
the `MIN(listings.price)` aggregate: the floor is the least price among
the card's active listings, `none` when there are none. -/
theorem floorPrice_eq (db : DB) (cid : Nat) :
    floorPriceOf db cid = minOpt ((activeListingsFor db cid).map (·.price)) := by
  unfold floorPriceOf sqlMin
  apply minOpt_congr
  intro x
  constructor
  · intro hx
    simp only [List.mem_filterMap, List.mem_map, id_eq] at hx
    obtain ⟨o, ⟨r, hr, hro⟩, ho⟩ := hx
    rw [ho, Option.map_eq_some'] at hro
    obtain ⟨l, hrl, hlp⟩ := hro
    have hmem := ((mem_catalogJoinRows db cid r).mp hr).2.2
    rw [hrl, some_mem_nullableJoin] at hmem
    exact List.mem_map.mpr ⟨l, hmem, hlp⟩
  · intro hx
    rw [List.mem_map] at hx
    obtain ⟨l, hl, hlp⟩ := hx
    obtain ⟨h0, hh⟩ :=
      List.exists_mem_of_ne_nil _ (nullableJoin_ne_nil (havesFor db cid))
    obtain ⟨w0, hw⟩ :=
      List.exists_mem_of_ne_nil _ (nullableJoin_ne_nil (wantsFor db cid))
    refine List.mem_filterMap.mpr ⟨some x, ?_, rfl⟩
    refine List.mem_map.mpr ⟨⟨h0, w0, some l⟩, ?_, ?_⟩
    · exact (mem_catalogJoinRows db cid _).mpr
        ⟨hh, hw, (some_mem_nullableJoin l _).mpr hl⟩
    · simp [hlp]

/-- Modelled from the spec: the floor price of a card is the minimum price
among that card's active listings; a card with no active listings has an
absent floor price. -/
def specFloorPrice (db : DB) (cid : Nat) : Option ℚ :=
  minOpt ((db.listings.filter fun l =>
    decide (l.card_id = cid ∧ l.status = "active")).map (·.price))

def blastoiseCard : Card :=
  { id := 2, set_id := 1, name := "Blastoise", card_number := "2",
    rarity := "Holo Rare", image_url := "" }

def mkListing (i : Nat) (cid : Nat) (p : ℚ) (st : String) : Listing :=
  { id := i, card_id := cid, user_id := 1, price := p, quantity := 1,
    condition := "NM", description := "", status := st,
    created_at := "2026-01-02" }

/-- Card 1 has active listings priced 12.50, 9.99 and 20.00; card 2 has
only a non-active listing. -/
def floorDB : DB :=
  { users := [ashUser], sets := [baseSet],
    cards := [charizardCard, blastoiseCard],
    listings :=
      [ mkListing 1 1 12.50 "active", mkListing 2 1 9.99 "active",
        mkListing 3 1 20.00 "active", mkListing 4 2 1 "sold" ],
    user_cards := [] }

/-- C6: the catalog's floor-price aggregate equals the minimum active
listing price of the card; on the example prices {12.50, 9.99, 20.00} it
is 9.99, and for a card with no active listings it is absent, not zero. -/
theorem catalog_floor_price_correct :
    (∀ (db : DB) (cid : Nat), floorPriceOf db cid = specFloorPrice db cid) ∧
    floorPriceOf floorDB 1 = some (9.99 : ℚ) ∧
    floorPriceOf floorDB 2 = none := by
  refine ⟨fun db cid => ?_, ?_, ?_⟩
  · rw [floorPrice_eq, specFloorPrice, activeListingsFor]
    congr 1
    congr 1
    apply List.filter_congr
    intro l _
    rw [Bool.eq_iff_iff]
    simp
  · rw [floorPrice_eq]
    norm_num [activeListingsFor, floorDB, mkListing, minOpt, min_def]
  · rw [floorPrice_eq]
    norm_num [activeListingsFor, floorDB, mkListing, minOpt]

theorem mem_cardsQuery (db : DB) (search : String) (setf : Option Nat)
    (row : CatalogRow) :
    row ∈ cardsQuery db search setf ↔
      ∃ c s, c ∈ db.cards ∧
        (db.sets.find? fun s' => s'.id == c.set_id) = some s ∧
        ((search == "" || likeM ("%" ++ search ++ "%").data c.name.data) &&
         (match setf with
          | none => true
          | some v => s.id == v)) = true ∧
        row = mkCatalogRow db c s := by
  simp only [cardsQuery, List.mem_insertionSort, List.mem_map, List.mem_filter,
    List.mem_filterMap, Option.map_eq_some']
  constructor
  · rintro ⟨cs, ⟨⟨c, hc, s, hfind, rfl⟩, hp⟩, rfl⟩
    exact ⟨c, s, hc, hfind, hp, rfl⟩
  · rintro ⟨c, s, hc, hfind, hp, rfl⟩
    exact ⟨(c, s), ⟨⟨c, hc, s, hfind, rfl⟩, hp⟩, rfl⟩

/-- C7 (amended): for a search string free of the `LIKE` wildcards `%`/`_`,
the catalog contains a card exactly when the card exists with its set, a
non-empty search occurs in the card name as a case-insensitive substring,
and a present set filter equals the card's set id; absent filters impose
no constraint and the filters compose conjunctively. -/
theorem cards_filter_contract (db : DB) (search : String) (setf : Option Nat)
    (hw : noWild search.data) (c : Card) :
    (∃ row ∈ cardsQuery db search setf, row.card = c) ↔
      (c ∈ db.cards ∧ (∃ s ∈ db.sets, s.id = c.set_id) ∧
       (search ≠ "" → specContains search c.name) ∧
       (∀ v, setf = some v → c.set_id = v)) := by
  have hdata : ("%" ++ search ++ "%").data = '%' :: (search.data ++ ['%']) := rfl
  constructor
  · rintro ⟨row, hrow, hrc⟩
    rw [mem_cardsQuery] at hrow
    obtain ⟨c', s, hc', hfind, hp, rfl⟩ := hrow
    have hcc : c' = c := hrc
    subst hcc
    rw [Bool.and_eq_true, Bool.or_eq_true] at hp
    have hsid0 := List.find?_some hfind
    have hsid : s.id = c'.set_id := by simpa using hsid0
    refine ⟨hc', ⟨s, List.mem_of_find?_eq_some hfind, hsid⟩, ?_, ?_⟩
    · intro hne
      rcases hp.1 with he | hlike
      · exact absurd (by simpa using he) hne
      · rw [hdata, likeM_substring_iff search.data hw] at hlike
        exact hlike
    · intro v hv
      subst hv
      have h2 : s.id = v := by simpa using hp.2
      rw [← hsid, h2]
  · rintro ⟨hc, ⟨s, hsmem, hsid⟩, hsearch, hsetf⟩
    have hsome : (db.sets.find? fun s' => s'.id == c.set_id).isSome := by
      rw [List.find?_isSome]
      exact ⟨s, hsmem, by simp [hsid]⟩
    obtain ⟨s', hfind⟩ := Option.isSome_iff_exists.mp hsome
    refine ⟨mkCatalogRow db c s', ?_, rfl⟩
    rw [mem_cardsQuery]
    refine ⟨c, s', hc, hfind, ?_, rfl⟩
    rw [Bool.and_eq_true, Bool.or_eq_true]
    constructor
    · by_cases he : search = ""
      · exact Or.inl (by simp [he])
      · refine Or.inr ?_
        rw [hdata, likeM_substring_iff search.data hw]
        exact hsearch he
    · cases setf with
      | none => rfl
      | some v =>
        have hv := hsetf v rfl
        have h10 := List.find?_some hfind
        have h1 : s'.id = c.set_id := by simpa using h10
        simp [h1, hv]

def dotCard : Card :=
  { id := 1, set_id := 1, name := "a", card_number := "1", rarity := "",
    image_url := "" }

def likeDB : DB :=
  { users := [], sets := [baseSet], cards := [dotCard], listings := [],
    user_cards := [] }

/-- C7 counterexample: the raw search string is interpolated into the
`LIKE` pattern, so its wildcard characters stay active.  Searching for
`"_"` returns the card named `"a"` although `"_"` is not a substring of
`"a"`, refuting the claim for arbitrary search strings. -/
theorem cards_filter_contract_counterexample :
    (∃ row ∈ cardsQuery likeDB "_" none, row.card.name = "a") ∧
    ¬ specContains "_" "a" := by
  constructor
  · decide
  · decide

def charDB : DB :=
  { users := [], sets := [baseSet], cards := [charizardCard, blastoiseCard],
    listings := [], user_cards := [] }

theorem cards_filter_contract_witness :
    noWild ("char" : String).data ∧
    (∃ row ∈ cardsQuery charDB "char" none, row.card = charizardCard) ∧
    ¬ (∃ row ∈ cardsQuery charDB "char" none, row.card = blastoiseCard) :=
  ⟨by decide,
   (cards_filter_contract charDB "char" none (by decide) charizardCard).mpr
     ⟨by decide, ⟨baseSet, by decide, by decide⟩, fun _ => by decide,
      fun v hv => nomatch hv⟩,
   by decide⟩

/-- Under foreign-key integrity (every listing's seller exists), the
card-detail base rows are exactly the card's active listings, in table
order. -/
theorem cardDetailBase_listings (db : DB) (cid : Nat)
    (hfk : ∀ l ∈ db.listings, ∃ u ∈ db.users, u.id = l.user_id) :
    (cardDetailBase db cid).map (·.listing) = activeListingsFor db cid := by
  have haux : ∀ ls : List Listing, (∀ l ∈ ls, ∃ u ∈ db.users, u.id = l.user_id) →
      ((ls.filterMap fun l =>
          if l.card_id == cid && l.status == "active" then
            (db.users.find? fun u => u.id == l.user_id).map (detailRowFor l)
          else none).map (·.listing))
        = ls.filter (fun l => l.card_id == cid && l.status == "active") := by
    intro ls hls
    induction ls with
    | nil => rfl
    | cons l ls ih =>
      have hl := hls l (List.mem_cons_self l ls)
      have htl : ∀ x ∈ ls, ∃ u ∈ db.users, u.id = x.user_id :=
        fun x hx => hls x (List.mem_cons_of_mem l hx)
      rw [List.filterMap_cons, List.filter_cons]
      by_cases hc : (l.card_id == cid && l.status == "active") = true
      · obtain ⟨u, hu, huid⟩ := hl
        have hsome : (db.users.find? fun u' => u'.id == l.user_id).isSome := by
          rw [List.find?_isSome]
          exact ⟨u, hu, by simp [huid]⟩
        obtain ⟨u', hu'⟩ := Option.isSome_iff_exists.mp hsome
        rw [if_pos hc, if_pos hc, hu']
        simp only [Option.map_some']
        rw [List.map_cons, ih htl]
        rfl
      · rw [if_neg hc, if_neg hc]
        exact ih htl
  exact haux db.listings hfk

/-- C10: under foreign-key integrity the card-detail page's listings are
sorted by ascending price, and when non-empty the first listing's price
equals the card's catalog floor price. -/
theorem card_detail_listings_sorted_floor (db : DB) (cid : Nat)
    (hfk : ∀ l ∈ db.listings, ∃ u ∈ db.users, u.id = l.user_id) :
    List.Sorted priceOrder (cardDetailListings db cid) ∧
    ∀ r, (cardDetailListings db cid).head? = some r →
      floorPriceOf db cid = some r.listing.price := by
  constructor
  · exact List.sorted_insertionSort priceOrder _
  · intro r hr
    have hperm : List.Perm (cardDetailListings db cid) (cardDetailBase db cid) :=
      List.perm_insertionSort priceOrder _
    have hsorted : List.Sorted priceOrder (cardDetailListings db cid) :=
      List.sorted_insertionSort priceOrder _
    cases hd : cardDetailListings db cid with
    | nil =>
      rw [hd] at hr
      cases hr
    | cons a tl =>
      rw [hd] at hr
      have ha : a = r := by simpa using hr
      subst ha
      rw [floorPrice_eq, minOpt_eq_some]
      have hbase := cardDetailBase_listings db cid hfk
      constructor
      · rw [← hbase, List.map_map]
        have hmem : a ∈ cardDetailBase db cid :=
          hperm.mem_iff.mp (by rw [hd]; exact List.mem_cons_self _ _)
        exact List.mem_map.mpr ⟨a, hmem, rfl⟩
      · intro x hx
        rw [← hbase, List.map_map] at hx
        obtain ⟨b, hb, rfl⟩ := List.mem_map.mp hx
        have hbs : b ∈ cardDetailListings db cid := hperm.mem_iff.mpr hb
        rw [hd] at hbs
        rcases List.mem_cons.mp hbs with rfl | hbtl
        · exact le_refl _
        · rw [hd] at hsorted
          exact (List.sorted_cons.mp hsorted).1 b hbtl

def detailDB : DB :=
  { users := [ashUser], sets := [baseSet], cards := [charizardCard],
    listings := [mkListing 1 1 12 "active", mkListing 2 1 9 "active",
                 mkListing 3 1 20 "active"],
    user_cards := [] }

theorem card_detail_listings_sorted_floor_witness :
    (∀ l ∈ detailDB.listings, ∃ u ∈ detailDB.users, u.id = l.user_id) ∧
    (List.Sorted priceOrder (cardDetailListings detailDB 1) ∧
     ∀ r, (cardDetailListings detailDB 1).head? = some r →
       floorPriceOf detailDB 1 = some r.listing.price) :=
  ⟨by decide, card_detail_listings_sorted_floor detailDB 1 (by decide)⟩

/-! ## Claims about binder visibility -/

theorem mem_cardDetailHaves_is_public (db : DB) (cid : Nat) (r : PublicUC)
    (hr : r ∈ cardDetailHaves db cid) : r.uc.is_public = true := by
  obtain ⟨x, hx, hfx⟩ := List.mem_filterMap.mp hr
  by_cases hcnd : (x.card_id == cid && x.list_type == "have" && x.is_public) = true
  · rw [if_pos hcnd] at hfx
    simp only [Option.map_eq_some'] at hfx
    obtain ⟨u, hu, hmk⟩ := hfx
    have hru : r.uc = x := by rw [← hmk]
    rw [hru]
    rw [Bool.and_eq_true] at hcnd
    exact hcnd.2
  · rw [if_neg hcnd] at hfx
    cases hfx

theorem mem_cardDetailWants_is_public (db : DB) (cid : Nat) (r : PublicUC)
    (hr : r ∈ cardDetailWants db cid) : r.uc.is_public = true := by
  obtain ⟨x, hx, hfx⟩ := List.mem_filterMap.mp hr
  by_cases hcnd : (x.card_id == cid && x.list_type == "want" && x.is_public) = true
  · rw [if_pos hcnd] at hfx
    simp only [Option.map_eq_some'] at hfx
    obtain ⟨u, hu, hmk⟩ := hfx
    have hru : r.uc = x := by rw [← hmk]
    rw [hru]
    rw [Bool.and_eq_true] at hcnd
    exact hcnd.2
  · rw [if_neg hcnd] at hfx
    cases hfx

theorem mem_publicBinderRows_is_public (db : DB) (uid : Nat) (lt : String)
    (r : BinderCardRow) (hr : r ∈ publicBinderRows db uid lt) :
    r.uc.is_public = true := by
  rw [publicBinderRows, List.mem_insertionSort] at hr
  obtain ⟨x, hx, hfx⟩ := List.mem_filterMap.mp hr
  by_cases hcnd : (x.user_id == uid && x.list_type == lt && x.is_public) = true
  · rw [if_pos hcnd] at hfx
    simp only [Option.bind_eq_some, Option.map_eq_some'] at hfx
    obtain ⟨c, hc, s, hs, hmk⟩ := hfx
    have hru : r.uc = x := by rw [← hmk]
    rw [hru]
    rw [Bool.and_eq_true] at hcnd
    exact hcnd.2
  · rw [if_neg hcnd] at hfx
    cases hfx

/-- A user-card row whose card and set exist occurs among the owner's
my-binder rows of its list type, public or not. -/
theorem mem_myBinderRows_of (db : DB) (uc : UserCard) (lt : String)
    (hm : uc ∈ db.user_cards) (ht : uc.list_type = lt)
    (hcard : ∃ c ∈ db.cards, c.id = uc.card_id)
    (hsets : ∀ c ∈ db.cards, ∃ s ∈ db.sets, s.id = c.set_id) :
    ∃ r ∈ myBinderRows db uc.user_id lt, r.uc = uc := by
  have hcond : (uc.user_id == uc.user_id && uc.list_type == lt) = true := by
    simp [ht]
  obtain ⟨c0, hc0mem, hc0id⟩ := hcard
  have hcsome : (db.cards.find? fun c => c.id == uc.card_id).isSome := by
    rw [List.find?_isSome]
    exact ⟨c0, hc0mem, by simp [hc0id]⟩
  obtain ⟨c', hc'⟩ := Option.isSome_iff_exists.mp hcsome
  have hc'mem : c' ∈ db.cards := List.mem_of_find?_eq_some hc'
  obtain ⟨s0, hs0mem, hs0id⟩ := hsets c' hc'mem
  have hssome : (db.sets.find? fun s => s.id == c'.set_id).isSome := by
    rw [List.find?_isSome]
    exact ⟨s0, hs0mem, by simp [hs0id]⟩
  obtain ⟨s', hs'⟩ := Option.isSome_iff_exists.mp hssome
  refine ⟨{ uc := uc, card_name := c'.name, card_image := c'.image_url,
            set_name := s'.name }, ?_, rfl⟩
  rw [myBinderRows, List.mem_insertionSort]
  refine List.mem_filterMap.mpr ⟨uc, hm, ?_⟩
  rw [if_pos hcond, hc']
  simp [hs']

/-- C8: a private `want` user-card row (with its card and set present)
appears in the owner's own my-binder wants, and is absent from the
public-binder page of every username — that page does not depend on the
viewer, so in particular any different viewer never sees it. -/
theorem private_want_binder_roundtrip (db : DB) (uc : UserCard)
    (hm : uc ∈ db.user_cards) (ht : uc.list_type = "want")
    (hp : uc.is_public = false)
    (hcard : ∃ c ∈ db.cards, c.id = uc.card_id)
    (hsets : ∀ c ∈ db.cards, ∃ s ∈ db.sets, s.id = c.set_id)
    (sess : Session) (hsess : sess.user_id = some uc.user_id) :
    (∃ v, my_binder db sess = some v ∧ ∃ row ∈ v.2, row.uc = uc) ∧
    (∀ uname v, user_binder db uname = some v →
       ∀ row ∈ v.wants, row.uc ≠ uc) := by
  constructor
  · refine ⟨(myBinderRows db uc.user_id "have", myBinderRows db uc.user_id "want"),
      ?_, ?_⟩
    · rw [my_binder, hsess]
      rfl
    · exact mem_myBinderRows_of db uc "want" hm ht hcard hsets
  · intro uname v hv row hrow hruc
    rw [user_binder, Option.map_eq_some'] at hv
    obtain ⟨u, hu, rfl⟩ := hv
    have hpub := mem_publicBinderRows_is_public db u.id "want" row hrow
    rw [hruc, hp] at hpub
    cases hpub

def wantUC : UserCard :=
  { id := 1, user_id := 1, card_id := 1, list_type := "want",
    is_public := false, condition := "", target_price := none }

def binderDB : DB :=
  { users := [ashUser], sets := [baseSet], cards := [charizardCard],
    listings := [], user_cards := [wantUC] }

theorem private_want_binder_roundtrip_witness :
    (wantUC ∈ binderDB.user_cards ∧ wantUC.list_type = "want" ∧
     wantUC.is_public = false ∧
     (∃ c ∈ binderDB.cards, c.id = wantUC.card_id) ∧
     (∀ c ∈ binderDB.cards, ∃ s ∈ binderDB.sets, s.id = c.set_id) ∧
     (Session.mk (some 1) (some "ash")).user_id = some wantUC.user_id) ∧
    ((∃ v, my_binder binderDB (Session.mk (some 1) (some "ash")) = some v ∧
        ∃ row ∈ v.2, row.uc = wantUC) ∧
     (∀ uname v, user_binder binderDB uname = some v →
        ∀ row ∈ v.wants, row.uc ≠ wantUC)) :=
  ⟨⟨by decide, by decide, by decide, by decide, by decide, by decide⟩,
   private_want_binder_roundtrip binderDB wantUC (by decide) (by decide)
     (by decide) (by decide) (by decide) (Session.mk (some 1) (some "ash"))
     (by decide)⟩

def privHaveUC : UserCard :=
  { id := 1, user_id := 1, card_id := 1, list_type := "have",
    is_public := false, condition := "NM", target_price := none }

def c4DB : DB :=
  { users := [ashUser], sets := [baseSet], cards := [charizardCard],
    listings := [], user_cards := [privHaveUC] }

def c4DBwithout : DB :=
  { users := [ashUser], sets := [baseSet], cards := [charizardCard],
    listings := [], user_cards := [] }

/-- C4 counterexample: the `/binders` page is rendered identically for
every viewer, and its `have_count` aggregate carries no `is_public`
condition, so a private row does contribute to a third-party view's
counts: with the single private row present the owner's count is 1, and
with it removed the count is 0. -/
theorem ucPrivate_visibility_counterexample :
    privHaveUC.is_public = false ∧
    (bindersQuery c4DB).map (·.have_count) = [1] ∧
    (bindersQuery c4DBwithout).map (·.have_count) = [0] :=
  ⟨by decide, by decide, by decide⟩

/-- C4 (amended): a private user-card row never appears among the rows of
the third-party views that list user-card contents — the card-detail
public haves/wants and the public user-binder page — while the owner's
own my-binder does include it; the `/binders` page's count aggregates,
however, do include private rows. -/
theorem ucPrivate_row_visibility (db : DB) (uc : UserCard)
    (hp : uc.is_public = false) :
    (∀ cid, ∀ r ∈ cardDetailHaves db cid, r.uc ≠ uc) ∧
    (∀ cid, ∀ r ∈ cardDetailWants db cid, r.uc ≠ uc) ∧
    (∀ uname v, user_binder db uname = some v →
       (∀ r ∈ v.haves, r.uc ≠ uc) ∧ (∀ r ∈ v.wants, r.uc ≠ uc)) ∧
    (uc ∈ db.user_cards → uc.list_type = "have" →
       (∃ c ∈ db.cards, c.id = uc.card_id) →
       (∀ c ∈ db.cards, ∃ s ∈ db.sets, s.id = c.set_id) →
       ∀ sess : Session, sess.user_id = some uc.user_id →
         ∃ v, my_binder db sess = some v ∧ ∃ r ∈ v.1, r.uc = uc) := by
  refine ⟨?_, ?_, ?_, ?_⟩
  · intro cid r hr hruc
    have hpub := mem_cardDetailHaves_is_public db cid r hr
    rw [hruc, hp] at hpub
    cases hpub
  · intro cid r hr hruc
    have hpub := mem_cardDetailWants_is_public db cid r hr
    rw [hruc, hp] at hpub
    cases hpub
  · intro uname v hv
    rw [user_binder, Option.map_eq_some'] at hv
    obtain ⟨u, hu, rfl⟩ := hv
    constructor
    · intro r hr hruc
      have hpub := mem_publicBinderRows_is_public db u.id "have" r hr
      rw [hruc, hp] at hpub
      cases hpub
    · intro r hr hruc
      have hpub := mem_publicBinderRows_is_public db u.id "want" r hr
      rw [hruc, hp] at hpub
      cases hpub
  · intro hm ht hcard hsets sess hsess
    refine ⟨(myBinderRows db uc.user_id "have", myBinderRows db uc.user_id "want"),
      ?_, ?_⟩
    · rw [my_binder, hsess]
      rfl
    · exact mem_myBinderRows_of db uc "have" hm ht hcard hsets

theorem ucPrivate_row_visibility_witness :
    privHaveUC.is_public = false ∧
    ((∀ cid, ∀ r ∈ cardDetailHaves c4DB cid, r.uc ≠ privHaveUC) ∧
     (∀ cid, ∀ r ∈ cardDetailWants c4DB cid, r.uc ≠ privHaveUC) ∧
     (∀ uname v, user_binder c4DB uname = some v →
        (∀ r ∈ v.haves, r.uc ≠ privHaveUC) ∧
        (∀ r ∈ v.wants, r.uc ≠ privHaveUC)) ∧
     (privHaveUC ∈ c4DB.user_cards → privHaveUC.list_type = "have" →
        (∃ c ∈ c4DB.cards, c.id = privHaveUC.card_id) →
        (∀ c ∈ c4DB.cards, ∃ s ∈ c4DB.sets, s.id = c.set_id) →
        ∀ sess : Session, sess.user_id = some privHaveUC.user_id →
          ∃ v, my_binder c4DB sess = some v ∧ ∃ r ∈ v.1, r.uc = privHaveUC)) :=
  ⟨by decide, ucPrivate_row_visibility c4DB privHaveUC (by decide)⟩
